import Mathlib

/-!
Verification of the PDF security layer of the pdfkit repository.

The development shallowly embeds the code of `lib/security.js` (the
`PDFSecurity` class and its helper functions) together with the crypto
helpers of `lib/crypto/` into Lean.  Byte strings are `List Nat` (every
entry a byte value `< 256`; JS `Uint8Array` writes truncate with `& 0xff`
where the code does).  The hash primitives MD5 and SHA-256 and the AES
block cipher come from external packages (`js-md5`, `@noble/hashes`,
`@noble/ciphers`), so they enter the embedding as function parameters:
every theorem below holds for an arbitrary block cipher / digest function
of the right output length, which is exactly how the security layer uses
them.  The RC4 cipher is implemented in the repository itself
(`lib/crypto/rc4.js`) and is embedded in full.  Randomness
(`lib/crypto/random.js`) is modelled by an explicit byte tape
`tape : Nat → Nat` together with a running read position, threaded in the
order the code draws random bytes.
-/

namespace PDFKit

/-- Byte strings: each element is a byte value. -/
abbrev Bytes := List Nat

/-! ## RC4 (src/lib/crypto/rc4.js) -/

/-- The swap `[s[i], s[j]] = [s[j], s[i]]` on the RC4 state array. -/
def swapState (s : Array Nat) (i j : Nat) : Array Nat :=
  let x := s.getD i 0
  let y := s.getD j 0
  (s.set! i y).set! j x

/-- One iteration of the RC4 key-scheduling loop:
`j = (j + s[i] + key[i % key.length]) & 0xff` followed by the swap. -/
def rc4ksaStep (key : Bytes) (sj : Array Nat × Nat) (i : Nat) : Array Nat × Nat :=
  let j := (sj.2 + sj.1.getD i 0 + key.getD (i % key.length) 0) % 256
  (swapState sj.1 i j, j)

/-- RC4 key scheduling: the state array is initialised to `0,…,255` and
mixed by 256 iterations of `rc4ksaStep` (the two `for` loops of
`rc4.js`). -/
def rc4ksa (key : Bytes) : Array Nat :=
  ((List.range 256).foldl (rc4ksaStep key) (Array.range 256, 0)).1

/-- The RC4 output loop of `rc4.js`: for each data byte,
`i = (i+1) & 0xff`, `j = (j+s[i]) & 0xff`, swap `s[i]`/`s[j]`, and output
`data[k] ^ s[(s[i]+s[j]) & 0xff]`. -/
def rc4prga (s : Array Nat) (i j : Nat) : Bytes → Bytes
  | [] => []
  | d :: ds =>
    let i' := (i + 1) % 256
    let j' := (j + s.getD i' 0) % 256
    let s' := swapState s i' j'
    (d ^^^ s'.getD ((s'.getD i' 0 + s'.getD j' 0) % 256) 0) :: rc4prga s' i' j' ds

/-- `rc4(data, key)` from src/lib/crypto/rc4.js. -/
def rc4 (data key : Bytes) : Bytes :=
  rc4prga (rc4ksa key) 0 0 data

/-! ## AES modes of operation (src/lib/crypto/aes.js)

`aesCbcEncrypt`/`aesEcbEncrypt` delegate to `@noble/ciphers`' `cbc`/`ecb`.
Modelled from the spec: CBC chaining over 16-byte blocks with optional
PKCS#7 padding, and ECB without padding, parameterised by the underlying
AES block cipher `aes : key → block → block`. -/

/-- PKCS#7: append `16 - len % 16` copies of that same count. -/
def pkcs7pad (data : Bytes) : Bytes :=
  data ++ List.replicate (16 - data.length % 16) (16 - data.length % 16)

/-- Block-splitting worker, structurally recursive on a fuel argument so
that it reduces inside the kernel; one unit of fuel is spent per block, so
any `fuel ≥ length` computes all blocks. -/
def toBlocksGo : Nat → Bytes → List Bytes
  | _, [] => []
  | 0, _ :: _ => []
  | fuel + 1, a :: as => ((a :: as).take 16) :: toBlocksGo fuel ((a :: as).drop 16)

/-- Split a byte string into consecutive 16-byte blocks (the last block may
be short when the length is not a multiple of 16). -/
def toBlocks (l : Bytes) : List Bytes := toBlocksGo l.length l

/-- Bytewise XOR of two blocks. -/
def xorBlock (a b : Bytes) : Bytes := List.zipWith Nat.xor a b

/-- CBC chaining: each plaintext block is XORed with the previous
ciphertext block (initially the IV) and sent through the block cipher. -/
def cbcEncBlocks (aes : Bytes → Bytes → Bytes) (key : Bytes) :
    Bytes → List Bytes → List Bytes
  | _, [] => []
  | prev, b :: bs =>
    let c := aes key (xorBlock prev b)
    c :: cbcEncBlocks aes key c bs

/-- `aesCbcEncrypt(data, key, iv, padding)` of src/lib/crypto/aes.js.
Modelled from the spec: AES-CBC encryption with PKCS#7 padding when
`padding` is set and none otherwise. -/
def aesCbcEncrypt (aes : Bytes → Bytes → Bytes) (data key iv : Bytes)
    (padding : Bool) : Bytes :=
  (cbcEncBlocks aes key iv (toBlocks (if padding then pkcs7pad data else data))).flatten

/-- `aesEcbEncrypt(data, key)` of src/lib/crypto/aes.js.  Modelled from the
spec: AES-ECB without padding. -/
def aesEcbEncrypt (aes : Bytes → Bytes → Bytes) (data key : Bytes) : Bytes :=
  ((toBlocks data).map (aes key)).flatten

/-! ## Randomness (src/lib/crypto/random.js)

`randomBytes(n)` fills a fresh buffer from the platform CSPRNG.  It is
modelled as reading `n` consecutive bytes from an ambient byte tape at a
running position; each draw advances the position by the number of bytes
read, in the order the security code performs the draws. -/

/-- Read `n` bytes from the random tape starting at `pos`. -/
def drawBytes (tape : Nat → Nat) (pos n : Nat) : Bytes :=
  (List.range n).map (fun i => tape (pos + i) % 256)

/-! ## Permission bitmasks (lib/security.js) -/

/-- The `permissions` option object.  `printing` is a string option
(`""` stands for an absent/falsy value; `getPermissionsR2` only tests
truthiness, `getPermissionsR3` compares against the two resolution
names). -/
structure PermissionsObj where
  printing : String := ""
  modifying : Bool := false
  copying : Bool := false
  annotating : Bool := false
  fillingForms : Bool := false
  contentAccessibility : Bool := false
  documentAssembly : Bool := false

/-- `getPermissionsR2(permissionObject)`.  The JS value is the signed
32-bit integer `0xffffffc0 >> 0` OR-ed with the capability bits; the
embedding carries the unsigned 32-bit pattern (see `toSigned32` for the
signed view). -/
def getPermissionsR2 (p : PermissionsObj) : Nat :=
  let v : Nat := 0xffffffc0
  let v := if p.printing ≠ "" then v ||| 0b000000000100 else v
  let v := if p.modifying then v ||| 0b000000001000 else v
  let v := if p.copying then v ||| 0b000000010000 else v
  let v := if p.annotating then v ||| 0b000000100000 else v
  v

/-- `getPermissionsR3(permissionObject)`, pattern `0xfffff0c0` plus
capability bits. -/
def getPermissionsR3 (p : PermissionsObj) : Nat :=
  let v : Nat := 0xfffff0c0
  let v := if p.printing = "lowResolution" then v ||| 0b000000000100 else v
  let v := if p.printing = "highResolution" then v ||| 0b100000000100 else v
  let v := if p.modifying then v ||| 0b000000001000 else v
  let v := if p.copying then v ||| 0b000000010000 else v
  let v := if p.annotating then v ||| 0b000000100000 else v
  let v := if p.fillingForms then v ||| 0b000100000000 else v
  let v := if p.contentAccessibility then v ||| 0b001000000000 else v
  let v := if p.documentAssembly then v ||| 0b010000000000 else v
  v

/-- The signed 32-bit reading of a 32-bit pattern (JS `x >> 0`). -/
def toSigned32 (n : Nat) : Int :=
  if n < 2 ^ 31 then (n : Int) else (n : Int) - 2 ^ 32

/-- Little-endian bytes `[x & 0xff, (x >> 8) & 0xff, (x >> 16) & 0xff,
(x >> 24) & 0xff]` of a 32-bit pattern. -/
def le32 (n : Nat) : Bytes :=
  [n % 256, n / 2 ^ 8 % 256, n / 2 ^ 16 % 256, n / 2 ^ 24 % 256]

/-! ## Password processing (lib/security.js) -/

/-- The fixed `PASSWORD_PADDING` constant. -/
def PASSWORD_PADDING : Bytes :=
  [0x28, 0xbf, 0x4e, 0x5e, 0x4e, 0x75, 0x8a, 0x41, 0x64, 0x00, 0x4e, 0x56,
   0xff, 0xfa, 0x01, 0x08, 0x2e, 0x2e, 0x00, 0xb6, 0xd0, 0x68, 0x3e, 0x80,
   0x2f, 0x0c, 0xa9, 0xfe, 0x64, 0x53, 0x69, 0x7a]

/-- `processPasswordR2R3R4(password)`.  The password is the list of UTF-16
code units of the JS string.  The first loop copies code units while
`index < length && index < 32`, throwing
`Password contains one or more invalid characters.` when a copied unit
exceeds `0xff` (modelled as `none`); the second loop fills the remaining
positions with `PASSWORD_PADDING[index - length]`. -/
def processPasswordR2R3R4 (password : Bytes) : Option Bytes :=
  if (password.take 32).any (fun c => 255 < c) then none
  else some (password.take 32 ++ PASSWORD_PADDING.take (32 - password.length))

/-- `processPasswordR5(password)`.  The composite
`unescape(encodeURIComponent(saslprep(password)))` yields a string whose
code units are the UTF-8 bytes of the SASLprep-normalised password;
`saslprep` lives in `lib/saslprep/`, outside the security layer, so that
normalising encoder is the parameter `utf8Saslprep`.  The code then keeps
the first `min(127, length)` bytes. -/
def processPasswordR5 (utf8Saslprep : String → Bytes) (password : String) : Bytes :=
  (utf8Saslprep password).take 127

/-! ## R2/R3/R4 entries (lib/security.js) -/

/-- `getUserPasswordR2(encryptionKey)`: RC4 of the padded empty password
under the file key.  (`processPasswordR2R3R4()` with the default `''`
never throws; `getD` discharges the impossible `none`.) -/
def getUserPasswordR2 (encryptionKey : Bytes) : Bytes :=
  rc4 ((processPasswordR2R3R4 []).getD []) encryptionKey

/-- `getUserPasswordR3R4(documentId, encryptionKey)`: MD5 of padded empty
password plus file ID, 20 XOR-keyed RC4 rounds, zero-padded to 32 bytes
(`new Uint8Array(32); result.set(cipher)`). -/
def getUserPasswordR3R4 (md5 : Bytes → Bytes) (documentId encryptionKey : Bytes) : Bytes :=
  let cipher := md5 ((processPasswordR2R3R4 []).getD [] ++ documentId)
  let cipher := (List.range 20).foldl
    (fun c i => rc4 c (encryptionKey.map (fun b => b ^^^ i))) cipher
  cipher ++ List.replicate (32 - cipher.length) 0

/-- `getOwnerPasswordR2R3R4(r, keyBits, paddedUserPassword,
paddedOwnerPassword)`: iterate MD5 on the padded owner password (51 times
when `r ≥ 3`, once otherwise), truncate to `keyBits/8` bytes, then RC4 the
padded user password (20 XOR-keyed rounds when `r ≥ 3`, a single round,
`i = 0`, otherwise). -/
def getOwnerPasswordR2R3R4 (md5 : Bytes → Bytes) (r keyBits : Nat)
    (paddedUserPassword paddedOwnerPassword : Bytes) : Bytes :=
  let digest := md5^[if 3 ≤ r then 51 else 1] paddedOwnerPassword
  let key := digest.take (keyBits / 8)
  (List.range (if 3 ≤ r then 20 else 1)).foldl
    (fun cipher i => rc4 cipher (key.map (fun b => b ^^^ i))) paddedUserPassword

/-- `getEncryptionKeyR2R3R4(r, keyBits, documentId, paddedUserPassword,
ownerPasswordEntry, permissions)`: MD5 of
`paddedUserPassword ‖ O ‖ perms_LE32 ‖ documentId`, truncated to
`keyBits/8` bytes after every round, 51 rounds when `r ≥ 3` and one round
otherwise. -/
def getEncryptionKeyR2R3R4 (md5 : Bytes → Bytes) (r keyBits : Nat)
    (documentId paddedUserPassword ownerPasswordEntry : Bytes)
    (permissions : Nat) : Bytes :=
  (fun k => (md5 k).take (keyBits / 8))^[if 3 ≤ r then 51 else 1]
    (paddedUserPassword ++ ownerPasswordEntry ++ le32 permissions ++ documentId)

/-- The encryption dictionary entries produced by
`_setupEncryptionV1V2V4` (plus the derived file key). -/
structure EncDictV1V2V4 where
  V : Nat
  R : Nat
  O : Bytes
  U : Bytes
  P : Int
  Length : Nat
  encryptionKey : Bytes
deriving Repr, DecidableEq

/-- `_setupEncryptionV1V2V4(v, encDict, options)`; `v ∈ {1, 2, 4}` (the
`switch` has no other case).  Passwords are lists of UTF-16 code units;
`ownerPassword = none` models a missing (or falsy) `options.ownerPassword`,
in which case the padded user password is reused.  `none` as a result
models the `InvalidPassword` throw out of `processPasswordR2R3R4`. -/
def setupEncryptionV1V2V4 (md5 : Bytes → Bytes) (v : Nat) (documentId : Bytes)
    (userPassword : Bytes) (ownerPassword : Option Bytes)
    (perms : PermissionsObj) : Option EncDictV1V2V4 := do
  let rkp : Nat × Nat × Nat :=
    match v with
    | 1 => (2, 40, getPermissionsR2 perms)
    | 2 => (3, 128, getPermissionsR3 perms)
    | _ => (4, 128, getPermissionsR3 perms)
  let r := rkp.1
  let keyBits := rkp.2.1
  let permissions := rkp.2.2
  let paddedUserPassword ← processPasswordR2R3R4 userPassword
  let paddedOwnerPassword ← match ownerPassword with
    | some op => processPasswordR2R3R4 op
    | none => pure paddedUserPassword
  let ownerPasswordEntry :=
    getOwnerPasswordR2R3R4 md5 r keyBits paddedUserPassword paddedOwnerPassword
  let encryptionKey := getEncryptionKeyR2R3R4 md5 r keyBits documentId
    paddedUserPassword ownerPasswordEntry permissions
  let userPasswordEntry := if r = 2 then getUserPasswordR2 encryptionKey
    else getUserPasswordR3R4 md5 documentId encryptionKey
  pure { V := v, R := r, O := ownerPasswordEntry, U := userPasswordEntry,
         P := toSigned32 permissions, Length := keyBits,
         encryptionKey := encryptionKey }

/-! ## R5 entries (lib/security.js)

Each helper that calls `generateRandomWordArray` takes the random tape and
the current position and returns the advanced position alongside its
result, with draws in program order. -/

/-- `getEncryptionKeyR5(generateRandomWordArray)`: 32 random bytes. -/
def getEncryptionKeyR5 (tape : Nat → Nat) (pos : Nat) : Bytes × Nat :=
  (drawBytes tape pos 32, pos + 32)

/-- `getUserPasswordR5`: 8-byte validation salt, 8-byte key salt,
`SHA-256(password ‖ validationSalt) ‖ validationSalt ‖ keySalt`. -/
def getUserPasswordR5 (sha256 : Bytes → Bytes) (tape : Nat → Nat) (pos : Nat)
    (processedUserPassword : Bytes) : Bytes × Nat :=
  let validationSalt := drawBytes tape pos 8
  let keySalt := drawBytes tape (pos + 8) 8
  (sha256 (processedUserPassword ++ validationSalt) ++ validationSalt ++ keySalt,
   pos + 16)

/-- `getUserEncryptionKeyR5`: AES-256-CBC of the file key under
`SHA-256(password ‖ keySalt)` with a zero IV and no padding. -/
def getUserEncryptionKeyR5 (sha256 : Bytes → Bytes) (aes : Bytes → Bytes → Bytes)
    (processedUserPassword userKeySalt encryptionKey : Bytes) : Bytes :=
  aesCbcEncrypt aes encryptionKey
    (sha256 (processedUserPassword ++ userKeySalt)) (List.replicate 16 0) false

/-- `getOwnerPasswordR5`: like the user entry but the hash also covers the
full user password entry. -/
def getOwnerPasswordR5 (sha256 : Bytes → Bytes) (tape : Nat → Nat) (pos : Nat)
    (processedOwnerPassword userPasswordEntry : Bytes) : Bytes × Nat :=
  let validationSalt := drawBytes tape pos 8
  let keySalt := drawBytes tape (pos + 8) 8
  (sha256 (processedOwnerPassword ++ validationSalt ++ userPasswordEntry) ++
     validationSalt ++ keySalt,
   pos + 16)

/-- `getOwnerEncryptionKeyR5`. -/
def getOwnerEncryptionKeyR5 (sha256 : Bytes → Bytes) (aes : Bytes → Bytes → Bytes)
    (processedOwnerPassword ownerKeySalt userPasswordEntry encryptionKey : Bytes) :
    Bytes :=
  aesCbcEncrypt aes encryptionKey
    (sha256 (processedOwnerPassword ++ ownerKeySalt ++ userPasswordEntry))
    (List.replicate 16 0) false

/-- `getEncryptedPermissionsR5(permissions, encryptionKey,
generateRandomWordArray)`: the 16-byte block — permissions little-endian,
four `0xff` bytes, the ASCII bytes `T a d b`, four random bytes —
AES-256-ECB encrypted under the file key. -/
def getEncryptedPermissionsR5 (aes : Bytes → Bytes → Bytes) (tape : Nat → Nat)
    (pos : Nat) (permissions : Nat) (encryptionKey : Bytes) : Bytes × Nat :=
  let data := le32 permissions ++ [0xff, 0xff, 0xff, 0xff] ++
    [0x54, 0x61, 0x64, 0x62] ++ drawBytes tape pos 4
  (aesEcbEncrypt aes data encryptionKey, pos + 4)

/-- The processed owner password of `_setupEncryptionV5`:
`options.ownerPassword ? processPasswordR5(options.ownerPassword) :
processedUserPassword`. -/
def processedOwnerR5 (utf8Saslprep : String → Bytes) (userPassword : String)
    (ownerPassword : Option String) : Bytes :=
  match ownerPassword with
  | some op => processPasswordR5 utf8Saslprep op
  | none => processPasswordR5 utf8Saslprep userPassword

/-- The encryption dictionary entries produced by `_setupEncryptionV5`
(plus the random file key). -/
structure EncDictV5 where
  O : Bytes
  OE : Bytes
  U : Bytes
  UE : Bytes
  Perms : Bytes
  P : Int
  encryptionKey : Bytes
deriving Repr, DecidableEq

/-- `_setupEncryptionV5(encDict, options)`.  `ownerPassword = none` models
a missing (or falsy) `options.ownerPassword`, in which case the processed
user password is reused.  Random draws happen in program order: file key
(32), user validation and key salts (8 + 8), owner validation and key
salts (8 + 8), `Perms` filler (4). -/
def setupEncryptionV5 (sha256 : Bytes → Bytes) (aes : Bytes → Bytes → Bytes)
    (utf8Saslprep : String → Bytes) (tape : Nat → Nat) (pos : Nat)
    (userPassword : String) (ownerPassword : Option String)
    (perms : PermissionsObj) : EncDictV5 × Nat :=
  let permissions := getPermissionsR3 perms
  let processedUserPassword := processPasswordR5 utf8Saslprep userPassword
  let processedOwnerPassword := processedOwnerR5 utf8Saslprep userPassword ownerPassword
  let ek := getEncryptionKeyR5 tape pos
  let up := getUserPasswordR5 sha256 tape ek.2 processedUserPassword
  let userKeySalt := (up.1.drop 40).take 8
  let userEncryptionKeyEntry :=
    getUserEncryptionKeyR5 sha256 aes processedUserPassword userKeySalt ek.1
  let op := getOwnerPasswordR5 sha256 tape up.2 processedOwnerPassword up.1
  let ownerKeySalt := (op.1.drop 40).take 8
  let ownerEncryptionKeyEntry := getOwnerEncryptionKeyR5 sha256 aes
    processedOwnerPassword ownerKeySalt up.1 ek.1
  let pe := getEncryptedPermissionsR5 aes tape op.2 permissions ek.1
  ({ O := op.1, OE := ownerEncryptionKeyEntry, U := up.1,
     UE := userEncryptionKeyEntry, Perms := pe.1,
     P := toSigned32 permissions, encryptionKey := ek.1 }, pe.2)

/-! ## Per-object encryption (`getEncryptFn`, lib/security.js) -/

/-- The security-handler fields `getEncryptFn` reads. -/
structure SecurityState where
  version : Nat
  keyBits : Nat
  encryptionKey : Bytes

/-- The 5-byte object/generation suffix `[obj & 0xff, (obj >> 8) & 0xff,
(obj >> 16) & 0xff, gen & 0xff, (gen >> 8) & 0xff]`. -/
def objSuffix (obj gen : Nat) : Bytes :=
  [obj % 256, obj / 2 ^ 8 % 256, obj / 2 ^ 16 % 256, gen % 256, gen / 2 ^ 8 % 256]

/-- `getEncryptFn(obj, gen)`.  Returns the per-object encryption closure
together with the advanced random-tape position.  The code computes
`digest = encryptionKey ‖ suffix` only when `version < 5`; here it is a
`let` that the `version = 5` branch simply never uses.  For versions 4
and 5 the 16-byte IV is drawn once, here, and captured by the returned
closure; versions 1 and 2 draw nothing. -/
def getEncryptFn (md5 : Bytes → Bytes) (aes : Bytes → Bytes → Bytes)
    (tape : Nat → Nat) (pos : Nat) (st : SecurityState) (obj gen : Nat) :
    (Bytes → Bytes) × Nat :=
  let digest := st.encryptionKey ++ objSuffix obj gen
  if st.version = 1 ∨ st.version = 2 then
    let key := (md5 digest).take (min 16 (st.keyBits / 8 + 5))
    (fun buffer => rc4 buffer key, pos)
  else
    let key := if st.version = 4 then md5 (digest ++ [0x73, 0x41, 0x6c, 0x54])
      else st.encryptionKey
    let iv := drawBytes tape pos 16
    (fun buffer => iv ++ aesCbcEncrypt aes buffer key iv true, pos + 16)

/-! ## File ID generation (`PDFSecurity.generateFileID`, lib/security.js) -/

/-- The `info` object: `CreationDate.getTime()` in milliseconds, plus
every own enumerable key of `info` (the `CreationDate` itself included) in
iteration order, each value already stringified the way the template
literal renders `info[key].valueOf()`. -/
structure InfoDict where
  creationDateMillis : Int
  entries : List (String × String)

/-- The string appended to `infoStr` for one info key: the template
`` `${key}: ${info[key].valueOf()}\n` ``. -/
def infoEntryChars (kv : String × String) : List Char :=
  kv.1.data ++ (": ").data ++ kv.2.data ++ ['\n']

/-- The accumulated `infoStr`: starts with the creation-date milliseconds
plus `"\n"`, then appends one `infoEntryChars` per key. -/
def fileIDInfoChars (info : InfoDict) : List Char :=
  info.entries.foldl
    (fun acc kv => acc ++ infoEntryChars kv)
    ((toString info.creationDateMillis).data ++ ['\n'])

/-- UTF-8 encoding of a character sequence (what `js-md5` applies to a
string argument before hashing). -/
def utf8Bytes (s : List Char) : Bytes :=
  (s.flatMap (fun c => String.utf8EncodeChar c)).map (fun b => b.toNat)

/-- `PDFSecurity.generateFileID(info)`: MD5 of `infoStr`.  The method is
static and reads nothing besides `info` — in particular no `pdfVersion`
and no randomness. -/
def generateFileID (md5 : Bytes → Bytes) (info : InfoDict) : Bytes :=
  md5 (utf8Bytes (fileIDInfoChars info))

/-! ## Specification-side definitions

These restate, for comparison, the formulas in the specification's §4.6
wording; the claim theorems below relate them to the embedded code. -/

/-- Spec formula for the V1/V2/V4 per-object key:
`suffix = objNumber_LE24 ‖ gen_LE16`, `digest = fileKey ‖ suffix`,
`if V == 4: digest ‖= "sAlT"`, `k = MD5(digest)` truncated to
`min(16, keyBits/8 + 5)` bytes. -/
def specPerObjectKey (md5 : Bytes → Bytes) (v keyBits : Nat) (fileKey : Bytes)
    (objNumber gen : Nat) : Bytes :=
  let suffix := [objNumber % 256, objNumber / 2 ^ 8 % 256, objNumber / 2 ^ 16 % 256,
    gen % 256, gen / 2 ^ 8 % 256]
  let digest := fileKey ++ suffix
  let digest := if v = 4 then digest ++ [0x73, 0x41, 0x6c, 0x54] else digest
  (md5 digest).take (min 16 (keyBits / 8 + 5))

/-- Spec formula for the R2–R4 file encryption key:
`input = paddedUserPassword ‖ O ‖ perms_LE32 ‖ fileID1`; `key = MD5(input)`;
if `R ≥ 3` reapply MD5 50 more times, truncating the digest to `keyBits/8`
bytes between rounds; the result is the first `keyBits/8` bytes. -/
def specEncryptionKeyR2R3R4 (md5 : Bytes → Bytes) (r keyBits : Nat)
    (fileID1 paddedUserPassword ownerEntry : Bytes) (permissions : Nat) : Bytes :=
  let input := paddedUserPassword ++ ownerEntry ++ le32 permissions ++ fileID1
  let key := md5 input
  let key := if 3 ≤ r then (fun k => md5 (k.take (keyBits / 8)))^[50] key else key
  key.take (keyBits / 8)

/-- Spec formula for the R2–R4 owner entry: `digest` is MD5 iterated on the
padded owner password (51 times in total when `R ≥ 3`, once when `R = 2`);
`key` is its first `keyBits/8` bytes; `O` is `RC4(paddedUserPassword, key)`
when `R = 2` and twenty RC4 rounds keyed by `key` with every byte XORed
with the round index when `R ≥ 3`. -/
def specOwnerEntryR2R3R4 (md5 : Bytes → Bytes) (r keyBits : Nat)
    (paddedUserPassword paddedOwnerPassword : Bytes) : Bytes :=
  let digest := md5^[if 3 ≤ r then 51 else 1] paddedOwnerPassword
  let key := digest.take (keyBits / 8)
  if 3 ≤ r then
    (List.range 20).foldl
      (fun cipher i => rc4 cipher (key.map (fun b => b ^^^ i))) paddedUserPassword
  else rc4 paddedUserPassword key

/-- The AES key the V4/V5 per-object encryptor uses: the salted MD5 digest
for version 4, the file key itself for version 5. -/
def v4v5Key (md5 : Bytes → Bytes) (st : SecurityState) (obj gen : Nat) : Bytes :=
  if st.version = 4 then
    md5 (st.encryptionKey ++ objSuffix obj gen ++ [0x73, 0x41, 0x6c, 0x54])
  else st.encryptionKey

/-- Spec formula for the 16-byte `Perms` plaintext block: bytes 0–3 the
permissions little-endian, bytes 4–7 `0xff`, bytes 8–11 the ASCII codes of
`T`, `a`, `d`, `b`, bytes 12–15 random. -/
def specPermsBlockR5 (permissions : Nat) (rand4 : Bytes) : Bytes :=
  le32 permissions ++ [0xff, 0xff, 0xff, 0xff] ++ [0x54, 0x61, 0x64, 0x62] ++ rand4

/-- Spec formula for the file-ID hash input: the creation-date milliseconds
followed by a newline, then for each info key in order the key, `": "`, its
stringified value, and a newline. -/
def specFileIDChars (info : InfoDict) : List Char :=
  (toString info.creationDateMillis).data ++ ['\n'] ++
    (info.entries.map infoEntryChars).flatten

/-! ## Concrete instances used by the witnesses -/

/-- A stand-in 16-byte digest function for witness instantiation. -/
def constMd5 : Bytes → Bytes := fun _ => List.replicate 16 0

/-- A stand-in 32-byte digest function for witness instantiation. -/
def constSha256 : Bytes → Bytes := fun _ => List.replicate 32 0

/-- A stand-in 16-byte block cipher for witness instantiation. -/
def constAes : Bytes → Bytes → Bytes := fun _ _ => List.replicate 16 0

/-- A concrete random tape for witness instantiation. -/
def idTape : Nat → Nat := fun i => i

/-! ## Supporting lemmas -/

theorem rc4prga_length (data : Bytes) :
    ∀ (s : Array Nat) (i j : Nat), (rc4prga s i j data).length = data.length := by
  induction data with
  | nil => intro s i j; rfl
  | cons d ds ih => intro s i j; simpa [rc4prga] using ih _ _ _

/-- RC4 output has the same length as its input. -/
theorem rc4_length (data key : Bytes) : (rc4 data key).length = data.length :=
  rc4prga_length data _ 0 0

theorem drawBytes_length (tape : Nat → Nat) (pos n : Nat) :
    (drawBytes tape pos n).length = n := by
  simp [drawBytes]

theorem toBlocksGo_length :
    ∀ (fuel : Nat) (l : Bytes), l.length ≤ fuel →
      (toBlocksGo fuel l).length = (l.length + 15) / 16 := by
  intro fuel
  induction fuel with
  | zero =>
    intro l hl
    cases l with
    | nil => simp [toBlocksGo]
    | cons a as => simp at hl
  | succ fuel ih =>
    intro l hl
    cases l with
    | nil => simp [toBlocksGo]
    | cons a as =>
      have hd : ((a :: as).drop 16).length ≤ fuel := by
        simp only [List.length_drop, List.length_cons]
        simp only [List.length_cons] at hl
        omega
      simp only [toBlocksGo, List.length_cons, ih _ hd, List.length_drop]
      omega

theorem toBlocks_length (l : Bytes) :
    (toBlocks l).length = (l.length + 15) / 16 :=
  toBlocksGo_length l.length l le_rfl

theorem cbcEncBlocks_flatten_length (aes : Bytes → Bytes → Bytes) (key : Bytes)
    (haes : ∀ k b, (aes k b).length = 16) (bs : List Bytes) :
    ∀ prev : Bytes, ((cbcEncBlocks aes key prev bs).flatten).length = 16 * bs.length := by
  induction bs with
  | nil => intro prev; rfl
  | cons b bs ih =>
    intro prev
    simp only [cbcEncBlocks, List.flatten_cons, List.length_append, haes, ih,
      List.length_cons]
    ring

/-- Output length of padded CBC encryption: the padded plaintext length,
`ceil((n+1)/16)·16`. -/
theorem aesCbcEncrypt_pad_length (aes : Bytes → Bytes → Bytes)
    (haes : ∀ k b, (aes k b).length = 16) (data key iv : Bytes) :
    (aesCbcEncrypt aes data key iv true).length = ((data.length + 16) / 16) * 16 := by
  simp only [aesCbcEncrypt, if_pos, cbcEncBlocks_flatten_length aes key haes,
    toBlocks_length, pkcs7pad, List.length_append, List.length_replicate]
  omega

/-- Output length of unpadded CBC encryption. -/
theorem aesCbcEncrypt_nopad_length (aes : Bytes → Bytes → Bytes)
    (haes : ∀ k b, (aes k b).length = 16) (data key iv : Bytes) :
    (aesCbcEncrypt aes data key iv false).length = ((data.length + 15) / 16) * 16 := by
  simp only [aesCbcEncrypt, if_neg, Bool.false_eq_true, not_false_iff,
    cbcEncBlocks_flatten_length aes key haes, toBlocks_length]
  omega

/-- Output length of (unpadded) ECB encryption. -/
theorem aesEcbEncrypt_length (aes : Bytes → Bytes → Bytes)
    (haes : ∀ k b, (aes k b).length = 16) (data key : Bytes) :
    (aesEcbEncrypt aes data key).length = ((data.length + 15) / 16) * 16 := by
  simp only [aesEcbEncrypt, List.length_flatten, List.map_map]
  have : ((toBlocks data).map (List.length ∘ aes key)) =
      (toBlocks data).map (fun _ => 16) := by
    apply List.map_congr_left; intro b _; exact haes key b
  rw [this, List.map_const', List.sum_replicate, smul_eq_mul, toBlocks_length]

/-- A fold of RC4 rounds preserves the cipher length. -/
theorem foldl_rc4_length (g : Nat → Bytes) (l : List Nat) :
    ∀ init : Bytes, (l.foldl (fun c i => rc4 c (g i)) init).length = init.length := by
  induction l with
  | nil => intro init; rfl
  | cons a l ih =>
    intro init
    rw [List.foldl_cons, ih, rc4_length]

/-- Re-bracketing of truncated MD5 iteration: hashing once and then
iterating hash-of-truncation `n` times, truncated at the end, is the same
as iterating truncate-after-hash `n + 1` times. -/
theorem iterate_md5_take (md5 : Bytes → Bytes) (L : Nat) :
    ∀ (n : Nat) (x : Bytes),
      ((fun k => md5 (k.take L))^[n] (md5 x)).take L =
        (fun k => (md5 k).take L)^[n + 1] x := by
  intro n
  induction n with
  | zero => intro x; simp
  | succ n ih =>
    intro x
    rw [Function.iterate_succ_apply, Function.iterate_succ_apply]
    exact ih ((md5 x).take L)

/-- A left fold of appends is the initial value followed by the
concatenation of the mapped pieces. -/
theorem foldl_append_flatten {α : Type} (g : α → List Char) (l : List α) :
    ∀ init : List Char,
      l.foldl (fun acc kv => acc ++ g kv) init = init ++ (l.map g).flatten := by
  induction l with
  | nil => intro init; simp
  | cons a l ih =>
    intro init
    rw [List.foldl_cons, ih, List.map_cons, List.flatten_cons, List.append_assoc]

/-! ## Claim theorems -/

/-- C1: under encryption versions 1 and 2 the function returned by
`getEncryptFn(n, g)` encrypts with RC4 under the key equal to the first
`min(16, keyBits/8 + 5)` bytes of `MD5(fileKey ‖ n_LE24 ‖ g_LE16)`; under
version 4 (where the setup always fixes `keyBits = 128`) the AES key is
MD5 of the same input with the four bytes `sAlT` appended, truncated the
same way; under version 5 no per-object key is derived and the file key is
used directly. -/
theorem claim1_perObjectKey (md5 : Bytes → Bytes) (aes : Bytes → Bytes → Bytes)
    (tape : Nat → Nat) (pos : Nat) (st : SecurityState) (obj gen : Nat)
    (hmd5 : ∀ x, (md5 x).length = 16) :
    ((st.version = 1 ∨ st.version = 2) →
      (getEncryptFn md5 aes tape pos st obj gen).1 = fun buffer =>
        rc4 buffer (specPerObjectKey md5 st.version st.keyBits st.encryptionKey obj gen)) ∧
    (st.version = 4 → st.keyBits = 128 →
      (getEncryptFn md5 aes tape pos st obj gen).1 = fun buffer =>
        drawBytes tape pos 16 ++
          aesCbcEncrypt aes buffer (specPerObjectKey md5 4 128 st.encryptionKey obj gen)
            (drawBytes tape pos 16) true) ∧
    (st.version = 5 →
      (getEncryptFn md5 aes tape pos st obj gen).1 = fun buffer =>
        drawBytes tape pos 16 ++
          aesCbcEncrypt aes buffer st.encryptionKey (drawBytes tape pos 16) true) := by
  obtain ⟨v, kb, ek⟩ := st
  refine ⟨fun h => ?_, fun h4 hkb => ?_, fun h5 => ?_⟩
  · simp only at h
    have hv4 : ¬v = 4 := by rcases h with h | h <;> omega
    simp only [getEncryptFn, if_pos h, specPerObjectKey, objSuffix, if_neg hv4]
  · simp only at h4 hkb
    subst h4; subst hkb
    have hne : ¬((4 : Nat) = 1 ∨ (4 : Nat) = 2) := by decide
    simp only [getEncryptFn, if_neg hne, specPerObjectKey, objSuffix,
      eq_self_iff_true, if_true]
    have h16 : min 16 (128 / 8 + 5) = 16 := by decide
    rw [h16]
    funext buffer
    rw [List.take_of_length_le (le_of_eq (hmd5 _))]
  · simp only at h5
    subst h5
    have hne : ¬((5 : Nat) = 1 ∨ (5 : Nat) = 2) := by decide
    have hv4 : ¬(5 : Nat) = 4 := by decide
    simp only [getEncryptFn, if_neg hne, if_neg hv4]

/-- C1 witness: concrete instantiation at version 2. -/
theorem claim1_witness :
    (getEncryptFn constMd5 constAes idTape 0 ⟨2, 128, List.replicate 16 1⟩ 1 0).1 =
      fun buffer =>
        rc4 buffer (specPerObjectKey constMd5 2 128 (List.replicate 16 1) 1 0) :=
  (claim1_perObjectKey constMd5 constAes idTape 0 ⟨2, 128, List.replicate 16 1⟩ 1 0
    (fun _ => rfl)).1 (Or.inr rfl)

/-- C2: for R2–R4 the file encryption key is
`MD5(paddedUserPassword ‖ O ‖ perms_LE32 ‖ fileID1)`, reapplied 50 more
times with truncation to `keyBits/8` bytes between rounds when `R ≥ 3`,
with the first `keyBits/8` bytes returned. -/
theorem claim2_encryptionKey (md5 : Bytes → Bytes) (r keyBits : Nat)
    (fileID1 paddedUserPassword ownerEntry : Bytes) (permissions : Nat)
    (hmd5 : ∀ x, (md5 x).length = 16) (hkb : keyBits / 8 ≤ 16) :
    getEncryptionKeyR2R3R4 md5 r keyBits fileID1 paddedUserPassword ownerEntry
        permissions =
      specEncryptionKeyR2R3R4 md5 r keyBits fileID1 paddedUserPassword ownerEntry
        permissions ∧
    (getEncryptionKeyR2R3R4 md5 r keyBits fileID1 paddedUserPassword ownerEntry
        permissions).length = keyBits / 8 := by
  constructor
  · by_cases h3 : 3 ≤ r
    · simp only [getEncryptionKeyR2R3R4, specEncryptionKeyR2R3R4, if_pos h3]
      exact (iterate_md5_take md5 (keyBits / 8) 50 _).symm
    · simp only [getEncryptionKeyR2R3R4, specEncryptionKeyR2R3R4, if_neg h3,
        Function.iterate_one]
  · by_cases h3 : 3 ≤ r
    · simp only [getEncryptionKeyR2R3R4, if_pos h3]
      rw [show (51 : Nat) = 50 + 1 from rfl, Function.iterate_succ_apply']
      simp only [List.length_take, hmd5]
      omega
    · simp only [getEncryptionKeyR2R3R4, if_neg h3, Function.iterate_one,
        List.length_take, hmd5]
      omega

/-- C2 witness: concrete instantiation at `r = 3`, `keyBits = 128`. -/
theorem claim2_witness :
    getEncryptionKeyR2R3R4 constMd5 3 128 (List.replicate 16 2) PASSWORD_PADDING
        (List.replicate 32 3) 4294963392 =
      specEncryptionKeyR2R3R4 constMd5 3 128 (List.replicate 16 2) PASSWORD_PADDING
        (List.replicate 32 3) 4294963392 ∧
    (getEncryptionKeyR2R3R4 constMd5 3 128 (List.replicate 16 2) PASSWORD_PADDING
        (List.replicate 32 3) 4294963392).length = 128 / 8 :=
  claim2_encryptionKey constMd5 3 128 (List.replicate 16 2) PASSWORD_PADDING
    (List.replicate 32 3) 4294963392 (fun _ => rfl) (by decide)

/-- C3: for R2–R4 the owner entry `O` is computed by iterating MD5 on the
padded owner password (51 times in total when `R ≥ 3`, once when `R = 2`),
taking the first `keyBits/8` bytes as key, and RC4-encrypting the padded
user password (20 XOR-keyed rounds when `R ≥ 3`, a single plain-key round
when `R = 2`); the result is exactly 32 bytes. -/
theorem claim3_ownerEntry (md5 : Bytes → Bytes) (r keyBits : Nat)
    (paddedUserPassword paddedOwnerPassword : Bytes)
    (hpu : paddedUserPassword.length = 32) :
    getOwnerPasswordR2R3R4 md5 r keyBits paddedUserPassword paddedOwnerPassword =
      specOwnerEntryR2R3R4 md5 r keyBits paddedUserPassword paddedOwnerPassword ∧
    (getOwnerPasswordR2R3R4 md5 r keyBits paddedUserPassword
        paddedOwnerPassword).length = 32 := by
  constructor
  · by_cases h3 : 3 ≤ r
    · simp only [getOwnerPasswordR2R3R4, specOwnerEntryR2R3R4, if_pos h3]
    · have hr : List.range 1 = [0] := rfl
      simp only [getOwnerPasswordR2R3R4, specOwnerEntryR2R3R4, if_neg h3, hr,
        List.foldl_cons, List.foldl_nil, Nat.xor_zero, List.map_id']
  · have := foldl_rc4_length
      (fun i => ((md5^[if 3 ≤ r then 51 else 1] paddedOwnerPassword).take
        (keyBits / 8)).map (fun b => b ^^^ i))
      (List.range (if 3 ≤ r then 20 else 1)) paddedUserPassword
    simp only [getOwnerPasswordR2R3R4]
    rw [this] at *
    exact hpu

/-- C3 witness: concrete instantiation at `r = 2`, `keyBits = 40`. -/
theorem claim3_witness :
    getOwnerPasswordR2R3R4 constMd5 2 40 PASSWORD_PADDING PASSWORD_PADDING =
      specOwnerEntryR2R3R4 constMd5 2 40 PASSWORD_PADDING PASSWORD_PADDING ∧
    (getOwnerPasswordR2R3R4 constMd5 2 40 PASSWORD_PADDING
        PASSWORD_PADDING).length = 32 :=
  claim3_ownerEntry constMd5 2 40 PASSWORD_PADDING PASSWORD_PADDING rfl

/-- C4 counterexample: the 33-code-unit password `'A'*32 ++ 'Ā'` contains a
code point greater than `0xFF`, yet `processPasswordR2R3R4` accepts it
(returns the 32 `'A'` bytes) instead of raising `InvalidPassword`: the
validity scan stops at index 32. -/
theorem claim4_counterexample :
    processPasswordR2R3R4 (List.replicate 32 0x41 ++ [0x100]) =
      some (List.replicate 32 0x41) ∧
    (List.replicate 32 0x41 ++ [0x100]).any (fun c => 255 < c) = true := by
  constructor
  · decide
  · decide

/-- C4 (amended): `processPasswordR2R3R4` raises `InvalidPassword` (here:
returns `none`) iff one of the FIRST 32 code units of the password exceeds
`0xFF`; otherwise the processed password is exactly 32 bytes — the first
`min(length, 32)` code units followed by bytes from the head of
`PASSWORD_PADDING` — and `_setupEncryptionV1V2V4` fails exactly when the
password processing does. -/
theorem claim4_processPassword (password : Bytes) :
    (processPasswordR2R3R4 password = none ↔
      (password.take 32).any (fun c => 255 < c) = true) ∧
    (∀ out, processPasswordR2R3R4 password = some out →
      out = password.take 32 ++ PASSWORD_PADDING.take (32 - password.length) ∧
      out.length = 32) ∧
    (∀ (md5 : Bytes → Bytes) (v : Nat) (documentId : Bytes) (perms : PermissionsObj),
      setupEncryptionV1V2V4 md5 v documentId password none perms = none ↔
        processPasswordR2R3R4 password = none) := by
  refine ⟨?_, ?_, ?_⟩
  · unfold processPasswordR2R3R4
    split_ifs with h
    · simp [h]
    · simp [h]
  · intro out hout
    unfold processPasswordR2R3R4 at hout
    split_ifs at hout with h
    obtain rfl : password.take 32 ++ PASSWORD_PADDING.take (32 - password.length)
        = out := Option.some.inj hout
    refine ⟨rfl, ?_⟩
    have hpad : PASSWORD_PADDING.length = 32 := rfl
    simp only [List.length_append, List.length_take, hpad]
    omega
  · intro md5 v documentId perms
    cases h : processPasswordR2R3R4 password with
    | none => simp [setupEncryptionV1V2V4, h]
    | some pu => simp [setupEncryptionV1V2V4, h]

/-- C4 witness: the one-byte password `[0x41]` is padded to 32 bytes. -/
theorem claim4_witness :
    [0x41] ++ PASSWORD_PADDING.take 31 =
      [0x41].take 32 ++ PASSWORD_PADDING.take (32 - [0x41].length) ∧
    ([0x41] ++ PASSWORD_PADDING.take 31).length = 32 :=
  (claim4_processPassword [0x41]).2.1 ([0x41] ++ PASSWORD_PADDING.take 31) (by decide)

/-- C5 counterexample: under version 5, the function returned by
`getEncryptFn` captures one IV; two invocations on the same input yield
EQUAL 16-byte prefixes — both the IV drawn from the tape at `getEncryptFn`
time — not different ones as claimed. -/
theorem claim5_counterexample :
    ¬(((getEncryptFn constMd5 constAes idTape 0
          ⟨5, 256, List.replicate 32 1⟩ 1 0).1 [0]).take 16 ≠
      ((getEncryptFn constMd5 constAes idTape 0
          ⟨5, 256, List.replicate 32 1⟩ 1 0).1 [0]).take 16) ∧
    (((getEncryptFn constMd5 constAes idTape 0
        ⟨5, 256, List.replicate 32 1⟩ 1 0).1 [0]).take 16 = drawBytes idTape 0 16) := by
  constructor
  · intro h; exact h rfl
  · decide

/-- C5 (amended): for versions 4 and 5 `getEncryptFn` draws the 16-byte IV
once, when it is itself called (advancing the random position by exactly
16), and the returned function prepends that same captured IV to the
AES-CBC (PKCS#7) encryption of its input — under the per-object key for
version 4 and the file key for version 5 — on every invocation. -/
theorem claim5_ivCapture (md5 : Bytes → Bytes) (aes : Bytes → Bytes → Bytes)
    (tape : Nat → Nat) (pos : Nat) (st : SecurityState) (obj gen : Nat)
    (hv : st.version = 4 ∨ st.version = 5) :
    (∀ buffer, (getEncryptFn md5 aes tape pos st obj gen).1 buffer =
      drawBytes tape pos 16 ++
        aesCbcEncrypt aes buffer (v4v5Key md5 st obj gen) (drawBytes tape pos 16) true) ∧
    (getEncryptFn md5 aes tape pos st obj gen).2 = pos + 16 := by
  have hne : ¬(st.version = 1 ∨ st.version = 2) := by
    rcases hv with h | h <;> rw [h] <;> decide
  constructor
  · intro buffer
    simp only [getEncryptFn, if_neg hne, v4v5Key]
  · simp only [getEncryptFn, if_neg hne]

/-- C5 witness: concrete instantiation at version 5 — the tape position
advances by 16 at `getEncryptFn` time. -/
theorem claim5_witness :
    (getEncryptFn constMd5 constAes idTape 0 ⟨5, 256, List.replicate 32 1⟩ 1 0).2 =
      0 + 16 :=
  (claim5_ivCapture constMd5 constAes idTape 0 ⟨5, 256, List.replicate 32 1⟩ 1 0
    (Or.inr rfl)).2

/-- C6: for an `n`-byte input, the function returned by `getEncryptFn`
returns exactly `n` bytes under versions 1 and 2, and exactly
`16 + ceil((n+1)/16)·16` bytes under versions 4 and 5. -/
theorem claim6_outputLength (md5 : Bytes → Bytes) (aes : Bytes → Bytes → Bytes)
    (tape : Nat → Nat) (pos : Nat) (st : SecurityState) (obj gen : Nat)
    (buffer : Bytes) (haes : ∀ k b, (aes k b).length = 16) :
    ((st.version = 1 ∨ st.version = 2) →
      ((getEncryptFn md5 aes tape pos st obj gen).1 buffer).length = buffer.length) ∧
    ((st.version = 4 ∨ st.version = 5) →
      ((getEncryptFn md5 aes tape pos st obj gen).1 buffer).length =
        16 + ((buffer.length + 1 + 15) / 16) * 16) := by
  constructor
  · intro h
    simp only [getEncryptFn, if_pos h]
    exact rc4_length _ _
  · intro h
    have hne : ¬(st.version = 1 ∨ st.version = 2) := by
      rcases h with h | h <;> rw [h] <;> decide
    simp only [getEncryptFn, if_neg hne, List.length_append, drawBytes_length,
      aesCbcEncrypt_pad_length aes haes]

/-- C6 witness: a 3-byte input under version 4 yields `16 + 32` bytes. -/
theorem claim6_witness :
    ((getEncryptFn constMd5 constAes idTape 0 ⟨4, 128, List.replicate 16 1⟩ 1 0).1
        [0, 1, 2]).length = 16 + (([0, 1, 2].length + 1 + 15) / 16) * 16 :=
  (claim6_outputLength constMd5 constAes idTape 0 ⟨4, 128, List.replicate 16 1⟩ 1 0
    [0, 1, 2] (fun _ _ => rfl)).2 (Or.inl rfl)

/-- C7: under version 5, `U` and `O` are each 48 bytes — a 32-byte SHA-256
hash followed by the 8-byte validation salt and the 8-byte key salt — `UE`
and `OE` are each 32 bytes, and `Perms` is 16 bytes, the AES-256-ECB
encryption under the file key of the block whose bytes 0–3 are the
permissions little-endian, bytes 4–7 are `0xff`, bytes 8–11 are
`0x54 0x61 0x64 0x62`, and bytes 12–15 are random. -/
theorem claim7_v5Entries (sha256 : Bytes → Bytes) (aes : Bytes → Bytes → Bytes)
    (utf8Saslprep : String → Bytes) (tape : Nat → Nat) (pos : Nat)
    (userPassword : String) (ownerPassword : Option String) (perms : PermissionsObj)
    (hsha : ∀ x, (sha256 x).length = 32) (haes : ∀ k b, (aes k b).length = 16) :
    ((setupEncryptionV5 sha256 aes utf8Saslprep tape pos userPassword ownerPassword
        perms).1.U.length = 48) ∧
    ((setupEncryptionV5 sha256 aes utf8Saslprep tape pos userPassword ownerPassword
        perms).1.O.length = 48) ∧
    ((setupEncryptionV5 sha256 aes utf8Saslprep tape pos userPassword ownerPassword
        perms).1.UE.length = 32) ∧
    ((setupEncryptionV5 sha256 aes utf8Saslprep tape pos userPassword ownerPassword
        perms).1.OE.length = 32) ∧
    ((setupEncryptionV5 sha256 aes utf8Saslprep tape pos userPassword ownerPassword
        perms).1.Perms.length = 16) ∧
    ((setupEncryptionV5 sha256 aes utf8Saslprep tape pos userPassword ownerPassword
        perms).1.U =
      sha256 (processPasswordR5 utf8Saslprep userPassword ++
          drawBytes tape (pos + 32) 8) ++
        drawBytes tape (pos + 32) 8 ++ drawBytes tape (pos + 32 + 8) 8) ∧
    ((setupEncryptionV5 sha256 aes utf8Saslprep tape pos userPassword ownerPassword
        perms).1.O =
      sha256 (processedOwnerR5 utf8Saslprep userPassword ownerPassword ++
          drawBytes tape (pos + 32 + 16) 8 ++
          (setupEncryptionV5 sha256 aes utf8Saslprep tape pos userPassword
            ownerPassword perms).1.U) ++
        drawBytes tape (pos + 32 + 16) 8 ++ drawBytes tape (pos + 32 + 16 + 8) 8) ∧
    ((setupEncryptionV5 sha256 aes utf8Saslprep tape pos userPassword ownerPassword
        perms).1.Perms =
      aesEcbEncrypt aes
        (specPermsBlockR5 (getPermissionsR3 perms)
          (drawBytes tape (pos + 32 + 16 + 16) 4))
        (setupEncryptionV5 sha256 aes utf8Saslprep tape pos userPassword
          ownerPassword perms).1.encryptionKey) := by
  have hU : (setupEncryptionV5 sha256 aes utf8Saslprep tape pos userPassword
      ownerPassword perms).1.U =
      sha256 (processPasswordR5 utf8Saslprep userPassword ++
          drawBytes tape (pos + 32) 8) ++
        drawBytes tape (pos + 32) 8 ++ drawBytes tape (pos + 32 + 8) 8 := rfl
  have hO : (setupEncryptionV5 sha256 aes utf8Saslprep tape pos userPassword
      ownerPassword perms).1.O =
      sha256 (processedOwnerR5 utf8Saslprep userPassword ownerPassword ++
          drawBytes tape (pos + 32 + 16) 8 ++
          (setupEncryptionV5 sha256 aes utf8Saslprep tape pos userPassword
            ownerPassword perms).1.U) ++
        drawBytes tape (pos + 32 + 16) 8 ++ drawBytes tape (pos + 32 + 16 + 8) 8 := rfl
  have hUE : (setupEncryptionV5 sha256 aes utf8Saslprep tape pos userPassword
      ownerPassword perms).1.UE =
      getUserEncryptionKeyR5 sha256 aes (processPasswordR5 utf8Saslprep userPassword)
        (((setupEncryptionV5 sha256 aes utf8Saslprep tape pos userPassword
          ownerPassword perms).1.U.drop 40).take 8) (drawBytes tape pos 32) := rfl
  have hOE : (setupEncryptionV5 sha256 aes utf8Saslprep tape pos userPassword
      ownerPassword perms).1.OE =
      getOwnerEncryptionKeyR5 sha256 aes
        (processedOwnerR5 utf8Saslprep userPassword ownerPassword)
        (((setupEncryptionV5 sha256 aes utf8Saslprep tape pos userPassword
          ownerPassword perms).1.O.drop 40).take 8)
        (setupEncryptionV5 sha256 aes utf8Saslprep tape pos userPassword
          ownerPassword perms).1.U (drawBytes tape pos 32) := rfl
  have hPerms : (setupEncryptionV5 sha256 aes utf8Saslprep tape pos userPassword
      ownerPassword perms).1.Perms =
      aesEcbEncrypt aes
        (specPermsBlockR5 (getPermissionsR3 perms)
          (drawBytes tape (pos + 32 + 16 + 16) 4))
        (setupEncryptionV5 sha256 aes utf8Saslprep tape pos userPassword
          ownerPassword perms).1.encryptionKey := rfl
  refine ⟨?_, ?_, ?_, ?_, ?_, hU, hO, hPerms⟩
  · rw [hU]
    simp [List.length_append, hsha, drawBytes_length]
  · rw [hO]
    simp [List.length_append, hsha, drawBytes_length]
  · rw [hUE, getUserEncryptionKeyR5, aesCbcEncrypt_nopad_length aes haes,
      drawBytes_length]
  · rw [hOE, getOwnerEncryptionKeyR5, aesCbcEncrypt_nopad_length aes haes,
      drawBytes_length]
  · rw [hPerms, aesEcbEncrypt_length aes haes]
    simp [specPermsBlockR5, le32, List.length_append, drawBytes_length]

/-- C7 witness: concrete instantiation (no owner password, empty
permissions object). -/
theorem claim7_witness :
    (setupEncryptionV5 constSha256 constAes (fun _ => []) idTape 0 "u" none
        ⟨"", false, false, false, false, false, false⟩).1.Perms.length = 16 :=
  (claim7_v5Entries constSha256 constAes (fun _ => []) idTape 0 "u" none
    ⟨"", false, false, false, false, false, false⟩
    (fun _ => rfl) (fun _ _ => rfl)).2.2.2.2.1

set_option maxHeartbeats 1600000 in
/-- C8: for every permissions object under R3+, the permissions value is a
32-bit signed integer whose (1-indexed) bits 1–2 are 0 and bit 7 is 1;
`printing = "lowResolution"` sets bit 3 only and `"highResolution"` sets
bits 3 and 12, `fillingForms` sets bit 9, `contentAccessibility` bit 10,
`documentAssembly` bit 11, and all high bits 13–32 are set.  (1-indexed
bit `k` is `testBit (k-1)`.) -/
theorem claim8_permissionsR3 (p : PermissionsObj) :
    getPermissionsR3 p < 2 ^ 32 ∧
    -(2 ^ 31) ≤ toSigned32 (getPermissionsR3 p) ∧
    toSigned32 (getPermissionsR3 p) < 2 ^ 31 ∧
    (getPermissionsR3 p).testBit 0 = false ∧
    (getPermissionsR3 p).testBit 1 = false ∧
    (getPermissionsR3 p).testBit 6 = true ∧
    ((getPermissionsR3 p).testBit 2 = true ↔
      p.printing = "lowResolution" ∨ p.printing = "highResolution") ∧
    ((getPermissionsR3 p).testBit 11 = true ↔ p.printing = "highResolution") ∧
    (getPermissionsR3 p).testBit 8 = p.fillingForms ∧
    (getPermissionsR3 p).testBit 9 = p.contentAccessibility ∧
    (getPermissionsR3 p).testBit 10 = p.documentAssembly ∧
    (∀ i, i < 32 → 12 ≤ i → (getPermissionsR3 p).testBit i = true) := by
  obtain ⟨pr, m, c, a, f, ca, da⟩ := p
  by_cases h1 : pr = "lowResolution" <;> by_cases h2 : pr = "highResolution" <;>
    cases m <;> cases c <;> cases a <;> cases f <;> cases ca <;> cases da <;>
    simp_all [getPermissionsR3, toSigned32] <;> decide

/-- C9: `generateFileID(info)` returns exactly 16 bytes and equals the MD5
of the creation-date milliseconds followed by a newline and, for each info
key in order, the key, `": "`, its stringified value, and a newline; it
depends on nothing but `info` (no `pdfVersion` argument exists). -/
theorem claim9_fileID (md5 : Bytes → Bytes) (info : InfoDict)
    (hmd5 : ∀ x, (md5 x).length = 16) :
    (generateFileID md5 info).length = 16 ∧
    generateFileID md5 info = md5 (utf8Bytes (specFileIDChars info)) := by
  refine ⟨hmd5 _, ?_⟩
  unfold generateFileID specFileIDChars fileIDInfoChars
  rw [foldl_append_flatten]

/-- C9 witness: a one-entry info object. -/
theorem claim9_witness :
    (generateFileID constMd5 ⟨0, [("Title", "Test")]⟩).length = 16 ∧
    generateFileID constMd5 ⟨0, [("Title", "Test")]⟩ =
      constMd5 (utf8Bytes (specFileIDChars ⟨0, [("Title", "Test")]⟩)) :=
  claim9_fileID constMd5 ⟨0, [("Title", "Test")]⟩ (fun _ => rfl)

/-- C10: when `ownerPassword` is absent but `userPassword` is given, the
user password stands in for the owner password: for R2–R4 the `O` entry
equals the one computed with `ownerPassword = userPassword`, and for R5
the `O` and `OE` entries equal the ones computed with
`ownerPassword = userPassword`. -/
theorem claim10_ownerFallback (md5 : Bytes → Bytes) (sha256 : Bytes → Bytes)
    (aes : Bytes → Bytes → Bytes) (utf8Saslprep : String → Bytes)
    (tape : Nat → Nat) (pos : Nat) (v : Nat) (documentId : Bytes)
    (userPwBytes : Bytes) (userPwStr : String) (perms : PermissionsObj) :
    ((setupEncryptionV1V2V4 md5 v documentId userPwBytes none perms).map
        (fun d => d.O) =
      (setupEncryptionV1V2V4 md5 v documentId userPwBytes (some userPwBytes)
        perms).map (fun d => d.O)) ∧
    ((setupEncryptionV5 sha256 aes utf8Saslprep tape pos userPwStr none perms).1.O =
      (setupEncryptionV5 sha256 aes utf8Saslprep tape pos userPwStr
        (some userPwStr) perms).1.O) ∧
    ((setupEncryptionV5 sha256 aes utf8Saslprep tape pos userPwStr none perms).1.OE =
      (setupEncryptionV5 sha256 aes utf8Saslprep tape pos userPwStr
        (some userPwStr) perms).1.OE) := by
  refine ⟨?_, rfl, rfl⟩
  cases h : processPasswordR2R3R4 userPwBytes with
  | none => simp [setupEncryptionV1V2V4, h]
  | some pu => simp [setupEncryptionV1V2V4, h]

end PDFKit
